import Mathlib

/-! Shallow embedding of the progressive status reporter and the streaming
responder of async_handler.py, and of the oversized-response chunking of
discord_ai_bot.py, from the fgc-discord-bot repository.  Python strings are
modelled as lists of code points, wall-clock time as rationals, and the
outbound Discord channel as a trace of actions.  Nondeterminism of the
environment (whether an attempted edit succeeds, which id a fresh message
gets, what the clock reads) is passed in as explicit parameters. -/

/-- Python strings are sequences of code points; modelled as lists of characters. -/
abbrev PyStr := List Char

/-- Outbound operations on the chat channel: a successful send of a fresh
message, a successful edit of an owned message, or an edit attempt that
failed (discord raising NotFound or HTTPException). -/
inductive ChanAct where
  | send (id : Nat) (content : PyStr)
  | edit (id : Nat) (content : PyStr)
  | editFailed (id : Nat)
deriving DecidableEq

/-- Content delivered to the channel by an action, if any. -/
def ChanAct.content? : ChanAct → Option PyStr
  | .send _ c => some c
  | .edit _ c => some c
  | .editFailed _ => none

/-- Python exceptions that escape the modelled methods. -/
inductive PyErr where
  | indexError
  | notFound
deriving DecidableEq

/-- Models Python float formatting with one decimal digit, as in the
source's elapsed-time f-strings: rounds the rational to one decimal place
(half away from zero for nonnegative inputs; binary floating point
artifacts are abstracted away). -/
def fmt1 (q : ℚ) : PyStr :=
  let d : Int := Int.ediv (20 * q.num + (q.den : Int)) (2 * (q.den : Int))
  (toString (Int.ediv d 10)).toList ++ ['.'] ++ (toString ((Int.emod d 10).natAbs)).toList

/-- Header line built by ProgressiveTask.start. -/
def headerOf (name : PyStr) : PyStr := "**".toList ++ name ++ "**".toList

/-- Default initial status line built by ProgressiveTask.start. -/
def startLine (name : PyStr) : PyStr := "Starting ".toList ++ name ++ "...".toList

/-- Bullet line built by ProgressiveTask.update. -/
def bulletLine (s : PyStr) : PyStr := "• ".toList ++ s

/-- Closing line appended by ProgressiveTask.complete. -/
def completeLine (elapsed : ℚ) : PyStr :=
  "✓ Complete (".toList ++ fmt1 elapsed ++ "s)".toList

/-- Error line appended by ProgressiveTask.error. -/
def errorLine (msg : PyStr) : PyStr := "❌ Error: ".toList ++ msg

/-- Elapsed line appended by ProgressiveTask.error. -/
def failedLine (elapsed : ℚ) : PyStr := "Failed after ".toList ++ fmt1 elapsed ++ "s".toList

/-- Models the Python idiom of a string `or` a default: an empty string is
falsy, so it also falls back to the default. -/
def orDefault (o : Option PyStr) (d : PyStr) : PyStr :=
  match o with
  | none => d
  | some s => if s = [] then d else s

/-- Models a Python `if s:` guard around appending an optional string: only
a present, nonempty string is kept. -/
def truthyList (o : Option PyStr) : List PyStr :=
  match o with
  | none => []
  | some s => if s = [] then [] else [s]

/-- State of async_handler.ProgressiveTask: channel handle is implicit in the
action trace; `message` holds the id of the owned Discord message if any. -/
structure ProgressiveTask where
  task_name : PyStr
  message : Option Nat
  start_time : ℚ
  status_lines : List PyStr
  is_complete : Bool
deriving DecidableEq

/-- ProgressiveTask.__init__ at clock reading `now`. -/
def mkProgressiveTask (name : PyStr) (now : ℚ) : ProgressiveTask :=
  { task_name := name, message := none, start_time := now,
    status_lines := [], is_complete := false }

/-- The list of lines rendered by ProgressiveTask._format_status: when more
than 10 lines have accumulated, keep the first 2, an ellipsis marker, and
the last 7 (Python slice with negative start clamps exactly like
dropping length minus 7 under truncated subtraction). -/
def formatLines (t : ProgressiveTask) : List PyStr :=
  if 10 < t.status_lines.length then
    t.status_lines.take 2 ++ ["...".toList] ++
      t.status_lines.drop (t.status_lines.length - 7)
  else
    t.status_lines

/-- ProgressiveTask._format_status: the rendered lines joined by newlines. -/
def formatStatus (t : ProgressiveTask) : PyStr :=
  List.intercalate ['\n'] (formatLines t)

/-- Result of a ProgressiveTask method call: the mutated object, the trace of
channel operations performed, and the Python exception that escaped, if any
(object mutations made before the raise are kept, as in Python). -/
structure PRes where
  state : ProgressiveTask
  actions : List ChanAct
  err : Option PyErr
deriving DecidableEq

/-- ProgressiveTask.start: set the header and initial status line, send the
formatted status as a fresh message and own it. -/
def ProgressiveTask.start (t : ProgressiveTask) (initial_status : Option PyStr)
    (fid : Nat) : ProgressiveTask × List ChanAct :=
  let st := orDefault initial_status (startLine t.task_name)
  let t := { t with status_lines := [headerOf t.task_name, st] }
  ({ t with message := some fid }, [ChanAct.send fid (formatStatus t)])

/-- The `if self.message:` edit block of ProgressiveTask.update, which catches
discord NotFound and recovers by sending a replacement message that becomes
the owned message. -/
def ProgressiveTask.editOwned (t : ProgressiveTask) (ok : Bool) (fid : Nat) : PRes :=
  match t.message with
  | none => { state := t, actions := [], err := none }
  | some m =>
    if ok then
      { state := t, actions := [ChanAct.edit m (formatStatus t)], err := none }
    else
      { state := { t with message := some fid },
        actions := [ChanAct.editFailed m, ChanAct.send fid (formatStatus t)],
        err := none }

/-- The `if self.message:` edit block of ProgressiveTask.complete and
ProgressiveTask.error, which does not catch anything: a failing edit lets
the NotFound exception escape. -/
def ProgressiveTask.editStrict (t : ProgressiveTask) (ok : Bool) : PRes :=
  match t.message with
  | none => { state := t, actions := [], err := none }
  | some m =>
    if ok then
      { state := t, actions := [ChanAct.edit m (formatStatus t)], err := none }
    else
      { state := t, actions := [ChanAct.editFailed m], err := some PyErr.notFound }

/-- ProgressiveTask.update: append a bullet line, or replace the last line by
a bullet line (an empty line list makes the replacing subscript raise
IndexError before any mutation); then edit the owned message, recovering
from a failed edit by sending a replacement. -/
def ProgressiveTask.update (t : ProgressiveTask) (status : PyStr) (append : Bool)
    (ok : Bool) (fid : Nat) : PRes :=
  if append then
    let t := { t with status_lines := t.status_lines ++ [bulletLine status] }
    t.editOwned ok fid
  else
    match t.status_lines with
    | [] => { state := t, actions := [], err := some PyErr.indexError }
    | _ :: _ =>
      let t := { t with status_lines := t.status_lines.dropLast ++ [bulletLine status] }
      t.editOwned ok fid

/-- ProgressiveTask.complete at clock reading `now`: set the completion flag,
append the optional (truthy) final status and the closing line, then edit
the owned message without catching failures. -/
def ProgressiveTask.complete (t : ProgressiveTask) (final_status : Option PyStr)
    (now : ℚ) (ok : Bool) : PRes :=
  let t := { t with is_complete := true }
  let elapsed := now - t.start_time
  let t := { t with status_lines :=
    t.status_lines ++ truthyList final_status ++ [completeLine elapsed] }
  t.editStrict ok

/-- ProgressiveTask.error at clock reading `now`: set the completion flag,
append the error line and the elapsed line, then edit the owned message
without catching failures. -/
def ProgressiveTask.error (t : ProgressiveTask) (msg : PyStr) (now : ℚ)
    (ok : Bool) : PRes :=
  let t := { t with is_complete := true }
  let elapsed := now - t.start_time
  let t := { t with status_lines := t.status_lines ++ [errorLine msg, failedLine elapsed] }
  t.editStrict ok

/-- State of async_handler.StreamingResponse. -/
structure StreamingResponse where
  message : Option Nat
  buffer : PyStr
  last_update : ℚ
  update_interval : ℚ
deriving DecidableEq

/-- StreamingResponse.__init__: the last-flush timestamp starts at 0, not at
the construction time, and the flush interval is fixed at one half. -/
def mkStreamingResponse : StreamingResponse :=
  { message := none, buffer := [], last_update := 0, update_interval := 1/2 }

/-- The display text computed by StreamingResponse._update_message: a
non-final flush of a buffer longer than 1900 characters is truncated to its
first 1900 characters plus an ellipsis suffix. -/
def displayText (buffer : PyStr) (final : Bool) : PyStr :=
  if final = false ∧ 1900 < buffer.length then buffer.take 1900 ++ "...".toList
  else buffer

/-- StreamingResponse._update_message: send the display text as a fresh owned
message if none is owned, otherwise edit the owned message, falling back to
sending a fresh replacement when the edit raises HTTPException; finally
record the flush time. -/
def StreamingResponse.updateMessage (s : StreamingResponse) (final : Bool)
    (now : ℚ) (ok : Bool) (fid : Nat) : StreamingResponse × List ChanAct :=
  let dt := displayText s.buffer final
  match s.message with
  | none => ({ s with message := some fid, last_update := now }, [ChanAct.send fid dt])
  | some m =>
    if ok then ({ s with last_update := now }, [ChanAct.edit m dt])
    else ({ s with message := some fid, last_update := now },
          [ChanAct.editFailed m, ChanAct.send fid dt])

/-- StreamingResponse.add_chunk: always append the chunk to the buffer, then
flush exactly when the elapsed time since the last flush exceeds the
interval. -/
def StreamingResponse.add_chunk (s : StreamingResponse) (chunk : PyStr)
    (now : ℚ) (ok : Bool) (fid : Nat) : StreamingResponse × List ChanAct :=
  let s := { s with buffer := s.buffer ++ chunk }
  if s.update_interval < now - s.last_update then s.updateMessage false now ok fid
  else (s, [])

/-- StreamingResponse.finish: an unconditional final flush with no truncation. -/
def StreamingResponse.finish (s : StreamingResponse) (now : ℚ) (ok : Bool)
    (fid : Nat) : StreamingResponse × List ChanAct :=
  s.updateMessage true now ok fid

/-- The chunk comprehension of discord_ai_bot.on_message: successive slices
of 1900 characters. -/
def chunks1900 (l : PyStr) : List PyStr :=
  if h : l = [] then []
  else l.take 1900 :: chunks1900 (l.drop 1900)
termination_by l.length
decreasing_by
  simp only [List.length_drop]
  have h0 : 0 < l.length := List.length_pos.mpr h
  omega

/-- The response-sending branch of discord_ai_bot.on_message: responses over
2000 characters are split into 1900-character chunks sent in order, shorter
responses are sent unmodified as a single message. -/
def sendResponse (r : PyStr) : List PyStr :=
  if 2000 < r.length then chunks1900 r else [r]

/-- Bullet test used by the spec's header-count property: a line is a bullet
when it starts with the bullet-space prefix produced by update. -/
def isBullet (l : PyStr) : Bool := decide (l.take 2 = ['•', ' '])

/-- Number of non-bullet lines accumulated by a task. -/
def nonBulletCount (t : ProgressiveTask) : Nat :=
  (t.status_lines.filter (fun l => !isBullet l)).length

/-- Fold a list of update calls (status text, append flag) over a task,
keeping the mutated state. -/
def runUpdates (t : ProgressiveTask) (us : List (PyStr × Bool)) (ok : Bool)
    (fid : Nat) : ProgressiveTask :=
  us.foldl (fun a u => (a.update u.1 u.2 ok fid).state) t

/-- One iteration of the update loop of run_with_progress, accumulating the
action trace. -/
def runStep (fid : Nat) (acc : ProgressiveTask × List ChanAct) (u : PyStr) :
    ProgressiveTask × List ChanAct :=
  ((acc.1.update u true true fid).state, acc.2 ++ (acc.1.update u true true fid).actions)

/-- The prefix of run_with_progress up to the wrapped task: construct the
reporter, start it, and play the optional update lines (sends and edits
succeed in this modelled run). -/
def runFold (name : PyStr) (t0 : ℚ) (updates : List PyStr) (fid : Nat) :
    ProgressiveTask × List ChanAct :=
  let p0 := (mkProgressiveTask name t0).start none fid
  updates.foldl (runStep fid) p0

/-- async_handler.run_with_progress on the happy channel (sends and edits
succeed): start a task reporter, play the optional update lines, run the
wrapped task; on success call complete and return the result, on failure
call error and re-raise the same exception. -/
def run_with_progress {V : Type} (name : PyStr) (t0 tEnd : ℚ) (updates : List PyStr)
    (task : Except PyStr V) (fid : Nat) :
    Except PyStr V × ProgressiveTask × List ChanAct :=
  let pu := runFold name t0 updates fid
  match task with
  | .ok v =>
    let r := pu.1.complete none tEnd true
    (.ok v, r.state, pu.2 ++ r.actions)
  | .error e =>
    let r := pu.1.error e tEnd true
    (.error e, r.state, pu.2 ++ r.actions)

/-- Scenario state of claim C1: start, eleven updates, then complete. -/
def c1Scenario : ProgressiveTask :=
  let p := ((mkProgressiveTask ("Task".toList) 0).start none 0).1
  let p := runUpdates p (List.replicate 11 (("step".toList), true)) true 0
  (p.complete none 3 true).state

/-! Helper lemmas about the rendering window. -/

/-- Rendering with at most 10 accumulated lines is the identity. -/
theorem formatLines_of_le (t : ProgressiveTask) (h : t.status_lines.length ≤ 10) :
    formatLines t = t.status_lines := by
  simp only [formatLines, if_neg (by omega : ¬ 10 < t.status_lines.length)]

/-- Rendering with more than 10 accumulated lines keeps the first 2 lines, an
ellipsis marker, and the last 7 lines. -/
theorem formatLines_of_gt (t : ProgressiveTask) (h : 10 < t.status_lines.length) :
    formatLines t =
      t.status_lines.take 2 ++ ["...".toList] ++
        t.status_lines.drop (t.status_lines.length - 7) := by
  simp only [formatLines, if_pos h]

/-- The window rendered from more than 10 accumulated lines has exactly 10 lines. -/
theorem formatLines_length_of_gt (t : ProgressiveTask) (h : 10 < t.status_lines.length) :
    (formatLines t).length = 10 := by
  rw [formatLines_of_gt t h]
  simp only [List.length_append, List.length_take, List.length_cons, List.length_nil,
    List.length_drop]
  omega

/-- The window rendered from more than 10 accumulated lines has the ellipsis
marker as its third line. -/
theorem formatLines_third_of_gt (t : ProgressiveTask) (h : 10 < t.status_lines.length) :
    (formatLines t)[2]? = some ("...".toList) := by
  rw [formatLines_of_gt t h]
  have h2 : (t.status_lines.take 2).length = 2 := by
    simp only [List.length_take]
    omega
  rw [List.append_assoc, List.getElem?_append_right (by omega : (t.status_lines.take 2).length ≤ 2), h2]
  simp

/-- C1: rendering a status-line list with more than 10 accumulated lines
produces exactly 10 lines, namely the first 2 accumulated lines, the
ellipsis marker as the third line, and the last 7 accumulated lines; with
at most 10 accumulated lines all lines are rendered unchanged; and the
scenario of 11 updates after start followed by complete renders exactly 10
lines with the ellipsis as the third line. -/
theorem c1_format_status_windowing (t : ProgressiveTask) :
    (10 < t.status_lines.length →
      formatLines t =
        t.status_lines.take 2 ++ ["...".toList] ++
          t.status_lines.drop (t.status_lines.length - 7) ∧
      (formatLines t).length = 10 ∧ (formatLines t)[2]? = some ("...".toList)) ∧
    (t.status_lines.length ≤ 10 → formatLines t = t.status_lines) ∧
    ((formatLines c1Scenario).length = 10 ∧ (formatLines c1Scenario)[2]? = some ("...".toList)) := by
  refine ⟨fun h => ⟨formatLines_of_gt t h, formatLines_length_of_gt t h, formatLines_third_of_gt t h⟩,
    fun h => formatLines_of_le t h, ?_, ?_⟩
  · decide
  · decide

/-- Concrete 12-line task used to witness the windowing branch of C1. -/
def c1WitTask : ProgressiveTask :=
  { task_name := "T".toList, message := none, start_time := 0,
    status_lines := List.replicate 12 ("x".toList), is_complete := false }

/-- Witness for C1 at a 12-line task and at the 2-line scenario-free start. -/
theorem c1_format_status_windowing_witness :
    (formatLines c1WitTask).length = 10 ∧
    formatLines (mkProgressiveTask ("T".toList) 0) = (mkProgressiveTask ("T".toList) 0).status_lines := by
  exact ⟨((c1_format_status_windowing c1WitTask).1 (by decide)).2.1,
    (c1_format_status_windowing (mkProgressiveTask ("T".toList) 0)).2.1 (by decide)⟩

/-! Claims about the streaming responder. -/

/-- C2: add_chunk always appends the chunk to the buffer; it performs an
outbound flush exactly when the elapsed time since the last flush exceeds
the fixed half-unit interval; and when it flushes, exactly one content
delivery happens, carrying the full accumulated buffer subject only to the
non-final truncation rule (a send when no message is owned, an edit of the
owned message otherwise, the edit falling back to a replacement send on
failure). -/
theorem c2_add_chunk_rate_limit (s : StreamingResponse) (chunk : PyStr) (now : ℚ)
    (ok : Bool) (fid : Nat) (hi : s.update_interval = 1/2) :
    (s.add_chunk chunk now ok fid).1.buffer = s.buffer ++ chunk ∧
    ((s.add_chunk chunk now ok fid).2 ≠ [] ↔ 1/2 < now - s.last_update) ∧
    (1/2 < now - s.last_update →
      (s.add_chunk chunk now ok fid).2.filterMap ChanAct.content? =
        [displayText (s.buffer ++ chunk) false] ∧
      (s.add_chunk chunk now ok fid).1.last_update = now ∧
      (s.message = none →
        (s.add_chunk chunk now ok fid).2 =
          [ChanAct.send fid (displayText (s.buffer ++ chunk) false)])) := by
  simp only [StreamingResponse.add_chunk, hi]
  by_cases hc : (1/2 : ℚ) < now - s.last_update
  · have hc2 : (2 : ℚ)⁻¹ < now - s.last_update := by
      rw [show ((2 : ℚ)⁻¹) = 1/2 by norm_num]
      exact hc
    rw [if_pos hc]
    cases hm : s.message with
    | none =>
      simp [StreamingResponse.updateMessage, hm, hc2, ChanAct.content?]
    | some m =>
      cases ok <;> simp [StreamingResponse.updateMessage, hm, hc2, ChanAct.content?]
  · have hc2 : ¬ (2 : ℚ)⁻¹ < now - s.last_update := by
      rw [show ((2 : ℚ)⁻¹) = 1/2 by norm_num]
      exact hc
    rw [if_neg hc]
    simp [hc2]

/-- Witness for C2 on a fresh responder flushed at clock reading 1. -/
theorem c2_add_chunk_rate_limit_witness :
    (mkStreamingResponse.add_chunk ("hi".toList) 1 true 3).1.buffer = [] ++ "hi".toList ∧
    ((mkStreamingResponse.add_chunk ("hi".toList) 1 true 3).2 ≠ [] ↔
      1/2 < 1 - mkStreamingResponse.last_update) ∧
    (mkStreamingResponse.add_chunk ("hi".toList) 1 true 3).2 =
      [ChanAct.send 3 (displayText ([] ++ "hi".toList) false)] := by
  have h := c2_add_chunk_rate_limit mkStreamingResponse ("hi".toList) 1 true 3 rfl
  exact ⟨h.1, h.2.1, ((h.2.2 (by norm_num [mkStreamingResponse])).2.2) rfl⟩

/-- C3: a non-final flush of a buffer longer than 1900 characters delivers
exactly the first 1900 characters followed by the ellipsis suffix, while the
final flush performed by finish delivers the entire buffer untruncated. -/
theorem c3_truncation_rule (s : StreamingResponse) (now now2 : ℚ) (ok : Bool)
    (fid fid2 : Nat) (h : 1900 < s.buffer.length) :
    (s.updateMessage false now ok fid).2.filterMap ChanAct.content? =
      [s.buffer.take 1900 ++ "...".toList] ∧
    (s.finish now2 ok fid2).2.filterMap ChanAct.content? = [s.buffer] := by
  constructor
  · cases hm : s.message with
    | none => simp [StreamingResponse.updateMessage, hm, displayText, h, ChanAct.content?]
    | some m =>
      cases ok <;> simp [StreamingResponse.updateMessage, hm, displayText, h, ChanAct.content?]
  · cases hm : s.message with
    | none =>
      simp [StreamingResponse.finish, StreamingResponse.updateMessage, hm, displayText,
        ChanAct.content?]
    | some m =>
      cases ok <;>
        simp [StreamingResponse.finish, StreamingResponse.updateMessage, hm, displayText,
          ChanAct.content?]

/-- Concrete responder with a 1901-character buffer used to witness C3. -/
def c3WitResp : StreamingResponse :=
  { message := some 0, buffer := List.replicate 1901 'a', last_update := 0,
    update_interval := 1/2 }

/-- Witness for C3 at a 1901-character buffer. -/
theorem c3_truncation_rule_witness :
    (c3WitResp.updateMessage false 1 true 2).2.filterMap ChanAct.content? =
      [c3WitResp.buffer.take 1900 ++ "...".toList] ∧
    (c3WitResp.finish 2 true 3).2.filterMap ChanAct.content? = [c3WitResp.buffer] := by
  exact c3_truncation_rule c3WitResp 1 2 true 2 3
    (by simp only [c3WitResp, List.length_replicate]; norm_num)

/-- C9: on a freshly constructed responder the last-flush timestamp is 0, so
the very first add_chunk flushes by sending the initial owned message for
any wall-clock reading above half a time unit, in particular regardless of
how little time has passed since construction. -/
theorem c9_first_chunk_flushes (chunk : PyStr) (now : ℚ) (ok : Bool) (fid : Nat)
    (h : 1/2 < now) :
    mkStreamingResponse.last_update = 0 ∧
    (mkStreamingResponse.add_chunk chunk now ok fid).2 =
      [ChanAct.send fid (displayText chunk false)] ∧
    (mkStreamingResponse.add_chunk chunk now ok fid).1.message = some fid := by
  have hc2 : (2 : ℚ)⁻¹ < now := by
    rw [show ((2 : ℚ)⁻¹) = 1/2 by norm_num]
    exact h
  refine ⟨rfl, ?_, ?_⟩ <;>
    simp [StreamingResponse.add_chunk, mkStreamingResponse, StreamingResponse.updateMessage, hc2]

/-- Witness for C9 at clock reading 1. -/
theorem c9_first_chunk_flushes_witness :
    (mkStreamingResponse.add_chunk ("a".toList) 1 true 0).2 =
      [ChanAct.send 0 (displayText ("a".toList) false)] := by
  exact (c9_first_chunk_flushes ("a".toList) 1 true 0 (by norm_num)).2.1

/-! Claims about response chunking. -/

/-- Concatenating the 1900-character slices restores the original string. -/
theorem chunks1900_flatten (l : PyStr) : (chunks1900 l).flatten = l := by
  rw [chunks1900]
  by_cases h : l = []
  · simp [h]
  · rw [dif_neg h]
    rw [List.flatten_cons, chunks1900_flatten (l.drop 1900)]
    exact List.take_append_drop 1900 l
termination_by l.length
decreasing_by
  simp only [List.length_drop]
  have h0 : 0 < l.length := List.length_pos.mpr h
  omega

/-- Every 1900-character slice has at most 1900 characters. -/
theorem chunks1900_chunk_le (l : PyStr) : ∀ c ∈ chunks1900 l, c.length ≤ 1900 := by
  rw [chunks1900]
  by_cases h : l = []
  · simp [h]
  · rw [dif_neg h]
    intro c hc
    rcases List.mem_cons.mp hc with hc | hc
    · subst hc
      simp only [List.length_take]
      omega
    · exact chunks1900_chunk_le (l.drop 1900) c hc
termination_by l.length
decreasing_by
  simp only [List.length_drop]
  have h0 : 0 < l.length := List.length_pos.mpr h
  omega

/-- C8: the concatenation of the sent chunks always equals the original
response; a response longer than 2000 characters is split into consecutive
chunks of at most 1900 characters each, and a response of at most 2000
characters is sent unmodified as a single message. -/
theorem c8_chunking (r : PyStr) :
    (sendResponse r).flatten = r ∧
    (2000 < r.length →
      (sendResponse r).all (fun c => decide (c.length ≤ 1900)) = true) ∧
    (r.length ≤ 2000 → sendResponse r = [r]) := by
  refine ⟨?_, ?_, ?_⟩
  · unfold sendResponse
    split
    · exact chunks1900_flatten r
    · simp
  · intro h
    unfold sendResponse
    rw [if_pos h]
    rw [List.all_eq_true]
    intro c hc
    exact decide_eq_true (chunks1900_chunk_le r c hc)
  · intro h
    unfold sendResponse
    rw [if_neg (by omega)]

/-- Concrete 2001-character response used to witness the chunking branch of C8. -/
def c8WitLong : PyStr := List.replicate 2001 'a'

/-- Witness for C8 at a 2001-character response and at a 2-character response. -/
theorem c8_chunking_witness :
    (sendResponse c8WitLong).flatten = c8WitLong ∧
    (sendResponse c8WitLong).all (fun c => decide (c.length ≤ 1900)) = true ∧
    sendResponse ("hi".toList) = ["hi".toList] := by
  refine ⟨(c8_chunking c8WitLong).1, ?_, ?_⟩
  · exact (c8_chunking c8WitLong).2.1
      (by simp only [c8WitLong, List.length_replicate]; norm_num)
  · exact (c8_chunking ("hi".toList)).2.2 (by norm_num)

/-! Helper lemmas about the edit blocks of the reporter. -/

/-- The uncaught edit block never changes the object state. -/
theorem editStrict_state (t : ProgressiveTask) (ok : Bool) :
    (t.editStrict ok).state = t := by
  cases hm : t.message with
  | none => simp [ProgressiveTask.editStrict, hm]
  | some m => cases ok <;> simp [ProgressiveTask.editStrict, hm]

/-- With no owned message the uncaught edit block does nothing. -/
theorem editStrict_of_none (t : ProgressiveTask) (ok : Bool) (h : t.message = none) :
    t.editStrict ok = { state := t, actions := [], err := none } := by
  simp [ProgressiveTask.editStrict, h]

/-- With an owned message and a successful edit, the uncaught edit block
performs exactly one edit of the owned message. -/
theorem editStrict_of_ok (t : ProgressiveTask) (m : Nat) (h : t.message = some m) :
    t.editStrict true =
      { state := t, actions := [ChanAct.edit m (formatStatus t)], err := none } := by
  simp [ProgressiveTask.editStrict, h]

/-- With an owned message and a failing edit, the uncaught edit block raises
NotFound and sends nothing. -/
theorem editStrict_of_fail (t : ProgressiveTask) (m : Nat) (h : t.message = some m) :
    t.editStrict false =
      { state := t, actions := [ChanAct.editFailed m], err := some PyErr.notFound } := by
  simp [ProgressiveTask.editStrict, h]

/-- The recovering edit block never changes the status lines. -/
theorem editOwned_lines (t : ProgressiveTask) (ok : Bool) (fid : Nat) :
    (t.editOwned ok fid).state.status_lines = t.status_lines := by
  cases hm : t.message with
  | none => simp [ProgressiveTask.editOwned, hm]
  | some m => cases ok <;> simp [ProgressiveTask.editOwned, hm]

/-- The recovering edit block never changes the completion flag. -/
theorem editOwned_flag (t : ProgressiveTask) (ok : Bool) (fid : Nat) :
    (t.editOwned ok fid).state.is_complete = t.is_complete := by
  cases hm : t.message with
  | none => simp [ProgressiveTask.editOwned, hm]
  | some m => cases ok <;> simp [ProgressiveTask.editOwned, hm]

/-- The recovering edit block never changes the start time. -/
theorem editOwned_start_time (t : ProgressiveTask) (ok : Bool) (fid : Nat) :
    (t.editOwned ok fid).state.start_time = t.start_time := by
  cases hm : t.message with
  | none => simp [ProgressiveTask.editOwned, hm]
  | some m => cases ok <;> simp [ProgressiveTask.editOwned, hm]

/-- The recovering edit block never raises. -/
theorem editOwned_err (t : ProgressiveTask) (ok : Bool) (fid : Nat) :
    (t.editOwned ok fid).err = none := by
  cases hm : t.message with
  | none => simp [ProgressiveTask.editOwned, hm]
  | some m => cases ok <;> simp [ProgressiveTask.editOwned, hm]

/-- A successful recovering edit keeps the owned message. -/
theorem editOwned_message_of_ok (t : ProgressiveTask) (fid : Nat) :
    (t.editOwned true fid).state.message = t.message := by
  cases hm : t.message with
  | none => simp [ProgressiveTask.editOwned, hm]
  | some m => simp [ProgressiveTask.editOwned, hm]

/-- With no owned message the recovering edit block does nothing. -/
theorem editOwned_of_none (t : ProgressiveTask) (ok : Bool) (fid : Nat)
    (h : t.message = none) :
    t.editOwned ok fid = { state := t, actions := [], err := none } := by
  simp [ProgressiveTask.editOwned, h]

/-- The mutated state produced by complete: completion flag set, truthy final
status and closing line appended, everything else untouched. -/
theorem complete_state (t : ProgressiveTask) (fs : Option PyStr) (now : ℚ) (ok : Bool) :
    (t.complete fs now ok).state =
      { t with
        is_complete := true
        status_lines :=
          t.status_lines ++ truthyList fs ++ [completeLine (now - t.start_time)] } := by
  simp only [ProgressiveTask.complete]
  rw [editStrict_state]

/-- The mutated state produced by error: completion flag set, error line and
elapsed line appended, everything else untouched. -/
theorem error_state (t : ProgressiveTask) (msg : PyStr) (now : ℚ) (ok : Bool) :
    (t.error msg now ok).state =
      { t with
        is_complete := true
        status_lines :=
          t.status_lines ++ [errorLine msg, failedLine (now - t.start_time)] } := by
  simp only [ProgressiveTask.error]
  rw [editStrict_state]

/-- An append-mode update appends exactly one bullet line. -/
theorem update_append_lines (t : ProgressiveTask) (s : PyStr) (ok : Bool) (fid : Nat) :
    (t.update s true ok fid).state.status_lines = t.status_lines ++ [bulletLine s] := by
  simp only [ProgressiveTask.update, if_pos]
  rw [editOwned_lines]

/-- An update never changes the completion flag. -/
theorem update_flag (t : ProgressiveTask) (s : PyStr) (b ok : Bool) (fid : Nat) :
    (t.update s b ok fid).state.is_complete = t.is_complete := by
  cases b
  · cases hl : t.status_lines with
    | nil => simp [ProgressiveTask.update, hl]
    | cons x xs =>
      simp only [ProgressiveTask.update, hl, Bool.false_eq_true, if_false]
      rw [editOwned_flag]
  · simp only [ProgressiveTask.update, if_pos]
    rw [editOwned_flag]

/-- An update never changes the start time. -/
theorem update_start_time (t : ProgressiveTask) (s : PyStr) (b ok : Bool) (fid : Nat) :
    (t.update s b ok fid).state.start_time = t.start_time := by
  cases b
  · cases hl : t.status_lines with
    | nil => simp [ProgressiveTask.update, hl]
    | cons x xs =>
      simp only [ProgressiveTask.update, hl, Bool.false_eq_true, if_false]
      rw [editOwned_start_time]
  · simp only [ProgressiveTask.update, if_pos]
    rw [editOwned_start_time]

/-- A successful update keeps the owned message. -/
theorem update_message_of_ok (t : ProgressiveTask) (s : PyStr) (b : Bool) (fid : Nat) :
    (t.update s b true fid).state.message = t.message := by
  cases b
  · cases hl : t.status_lines with
    | nil => simp [ProgressiveTask.update, hl]
    | cons x xs =>
      simp only [ProgressiveTask.update, hl, Bool.false_eq_true, if_false]
      rw [editOwned_message_of_ok]
  · simp only [ProgressiveTask.update, if_pos]
    rw [editOwned_message_of_ok]

/-- A successful uncaught edit block never raises. -/
theorem editStrict_err_ok (t : ProgressiveTask) : (t.editStrict true).err = none := by
  cases hm : t.message with
  | none => simp [ProgressiveTask.editStrict, hm]
  | some m => simp [ProgressiveTask.editStrict, hm]

/-- Terminal task reached by start followed by complete at clock reading 10,
used for the re-entry counterexample of C4. -/
def c4CexTask : ProgressiveTask :=
  (((mkProgressiveTask ("T".toList) 0).start none 0).1.complete none 10 true).state

/-- C4 counterexample: after one complete the closing line occurs once, and a
second complete on the already-terminal task appends it again, so the
closing line is duplicated rather than guarded. -/
theorem c4_counterexample :
    c4CexTask.is_complete = true ∧
    c4CexTask.status_lines.count (completeLine 10) = 1 ∧
    (c4CexTask.complete none 10 true).state.status_lines.count (completeLine 10) = 2 := by
  refine ⟨rfl, ?_, ?_⟩ <;>
    · simp [c4CexTask, mkProgressiveTask, ProgressiveTask.start, ProgressiveTask.complete,
        ProgressiveTask.editStrict, orDefault, truthyList]
      decide

/-- C4 amended: the completion flag is permanent (every mutating operation on
a terminal task leaves it true), but line content is not frozen: a second
complete appends another closing line and an append-mode update appends
another bullet line, both silently (no raised guard when the edit
succeeds). -/
theorem c4_terminal_not_guarded (t : ProgressiveTask) (s : PyStr) (ok : Bool)
    (fs : Option PyStr) (now : ℚ) (fid : Nat) (h : t.is_complete = true) :
    (t.update s true ok fid).state.is_complete = true ∧
    (t.complete fs now ok).state.is_complete = true ∧
    (t.error s now ok).state.is_complete = true ∧
    (t.complete none now ok).state.status_lines =
      t.status_lines ++ [completeLine (now - t.start_time)] ∧
    (t.update s true ok fid).state.status_lines = t.status_lines ++ [bulletLine s] ∧
    (t.complete fs now true).err = none := by
  refine ⟨?_, ?_, ?_, ?_, ?_, ?_⟩
  · rw [update_flag]
    exact h
  · rw [complete_state]
  · rw [error_state]
  · rw [complete_state]
    simp [truthyList]
  · exact update_append_lines t s ok fid
  · simp only [ProgressiveTask.complete]
    exact editStrict_err_ok _

/-- Witness for C4 at the concrete terminal task: the second complete call
mutates the line list in place of being a no-op. -/
theorem c4_terminal_not_guarded_witness :
    (c4CexTask.complete none 10 true).state.status_lines =
      c4CexTask.status_lines ++ [completeLine (10 - c4CexTask.start_time)] ∧
    (c4CexTask.complete none 10 true).state.is_complete = true := by
  have h := c4_terminal_not_guarded c4CexTask ("x".toList) true none 10 0 (by decide)
  exact ⟨h.2.2.2.1, h.2.1⟩

/-- C10 counterexample: a replace-mode update before start raises IndexError
and mutates nothing, instead of mutating the line list. -/
theorem c10_counterexample :
    ((mkProgressiveTask ("T".toList) 0).update ("x".toList) false true 0).err =
      some PyErr.indexError ∧
    ((mkProgressiveTask ("T".toList) 0).update ("x".toList) false true 0).state.status_lines = [] := by
  decide

/-- C10 amended: before start (no owned message), an append-mode update, a
complete, and an error mutate the internal state without any outbound send
or edit and without acquiring a message, while a replace-mode update on the
empty line list raises IndexError without mutating anything and equally
without any outbound operation. -/
theorem c10_before_start_frame (t : ProgressiveTask) (s : PyStr) (fs : Option PyStr)
    (now : ℚ) (ok : Bool) (fid : Nat) (h : t.message = none) :
    (t.update s true ok fid) =
      { state := { t with status_lines := t.status_lines ++ [bulletLine s] },
        actions := [], err := none } ∧
    (t.complete fs now ok) =
      { state :=
          { t with
            is_complete := true
            status_lines :=
              t.status_lines ++ truthyList fs ++ [completeLine (now - t.start_time)] },
        actions := [], err := none } ∧
    (t.error s now ok) =
      { state :=
          { t with
            is_complete := true
            status_lines :=
              t.status_lines ++ [errorLine s, failedLine (now - t.start_time)] },
        actions := [], err := none } ∧
    (t.status_lines = [] →
      t.update s false ok fid = { state := t, actions := [], err := some PyErr.indexError }) := by
  have h1 : ({ t with status_lines := t.status_lines ++ [bulletLine s] } :
      ProgressiveTask).message = none := h
  refine ⟨?_, ?_, ?_, ?_⟩
  · simp only [ProgressiveTask.update, if_pos]
    rw [editOwned_of_none _ _ _ h1]
  · simp only [ProgressiveTask.complete]
    rw [editStrict_of_none _ _ (by exact h)]
  · simp only [ProgressiveTask.error]
    rw [editStrict_of_none _ _ (by exact h)]
  · intro hl
    simp [ProgressiveTask.update, hl]

/-- Witness for C10 on a freshly constructed task. -/
theorem c10_before_start_frame_witness :
    ((mkProgressiveTask ("T".toList) 0).update ("a".toList) true true 1) =
      { state :=
          { mkProgressiveTask ("T".toList) 0 with
            status_lines :=
              (mkProgressiveTask ("T".toList) 0).status_lines ++ [bulletLine ("a".toList)] },
        actions := [], err := none } ∧
    ((mkProgressiveTask ("T".toList) 0).update ("a".toList) false true 1) =
      { state := mkProgressiveTask ("T".toList) 0, actions := [],
        err := some PyErr.indexError } := by
  have h := c10_before_start_frame (mkProgressiveTask ("T".toList) 0) ("a".toList) none 0 true 1 rfl
  exact ⟨h.1, h.2.2.2 rfl⟩

/-- Concrete task owning message 5, used for the C6 counterexample. -/
def c6CexTask : ProgressiveTask :=
  { task_name := "T".toList, message := some 5, start_time := 0,
    status_lines := ["x".toList], is_complete := false }

/-- C6 counterexample: when the owned message is gone, complete raises
NotFound and performs no replacement send, so the recovery claimed for
complete does not happen. -/
theorem c6_counterexample :
    (c6CexTask.complete none 1 false).err = some PyErr.notFound ∧
    (c6CexTask.complete none 1 false).actions = [ChanAct.editFailed 5] ∧
    (c6CexTask.complete none 1 false).state.message = some 5 := by
  refine ⟨rfl, rfl, rfl⟩

/-- C6 amended: the missing-message recovery exists only in update, which
swallows the failure, sends a replacement carrying the current rendered
content and transfers ownership to it; complete and error let the NotFound
failure escape, send no replacement, and leave ownership unchanged. -/
theorem c6_recovery_update_only (t : ProgressiveTask) (m fid : Nat) (s : PyStr)
    (fs : Option PyStr) (now : ℚ) (h : t.message = some m) :
    ((t.update s true false fid).err = none ∧
     (t.update s true false fid).state.message = some fid ∧
     (t.update s true false fid).actions =
       [ChanAct.editFailed m,
        ChanAct.send fid (formatStatus (t.update s true false fid).state)]) ∧
    ((t.complete fs now false).err = some PyErr.notFound ∧
     (t.complete fs now false).state.message = some m ∧
     (t.complete fs now false).actions = [ChanAct.editFailed m]) ∧
    ((t.error s now false).err = some PyErr.notFound ∧
     (t.error s now false).state.message = some m ∧
     (t.error s now false).actions = [ChanAct.editFailed m]) := by
  refine ⟨?_, ?_, ?_⟩
  · simp only [ProgressiveTask.update, if_pos]
    simp [ProgressiveTask.editOwned, h, formatStatus]
    exact congrArg _ (by simp [formatLines])
  · simp only [ProgressiveTask.complete]
    rw [editStrict_of_fail _ m (by exact h)]
    exact ⟨rfl, h, rfl⟩
  · simp only [ProgressiveTask.error]
    rw [editStrict_of_fail _ m (by exact h)]
    exact ⟨rfl, h, rfl⟩

/-- Witness for C6 at the concrete task owning message 5: update recovers by
a replacement send and hands ownership to message 7. -/
theorem c6_recovery_update_only_witness :
    (c6CexTask.update ("y".toList) true false 7).err = none ∧
    (c6CexTask.update ("y".toList) true false 7).state.message = some 7 ∧
    (c6CexTask.error ("y".toList) 1 false).err = some PyErr.notFound := by
  have h := c6_recovery_update_only c6CexTask 5 7 ("y".toList) none 1 rfl
  exact ⟨h.1.1, h.1.2.1, h.2.2.1⟩

/-! Claim C5: header-line invariant of the reporter. -/

/-- A bullet line is recognised as a bullet. -/
theorem isBullet_bulletLine (s : PyStr) : isBullet (bulletLine s) = true := by
  unfold isBullet bulletLine
  rw [List.take_left' (by decide : ("• ".toList).length = 2)]
  decide

/-- The header line is never a bullet. -/
theorem isBullet_headerOf (name : PyStr) : isBullet (headerOf name) = false := by
  unfold isBullet headerOf
  rw [List.append_assoc, List.take_left' (by decide : ("**".toList).length = 2)]
  decide

/-- Shape invariant maintained by the reporter after start: the first line is
the header, there is a second line, and every line after the second is a
bullet. -/
def linesShape (name : PyStr) (ls : List PyStr) : Prop :=
  ∃ s rest, ls = headerOf name :: s :: rest ∧ ∀ x ∈ rest, isBullet x = true

/-- The state reached by start satisfies the shape invariant. -/
theorem linesShape_start (name : PyStr) (t0 : ℚ) (i : Option PyStr) (fid : Nat) :
    linesShape name (((mkProgressiveTask name t0).start i fid).1).status_lines := by
  refine ⟨orDefault i (startLine name), [], ?_, by simp⟩
  simp [ProgressiveTask.start, mkProgressiveTask]

/-- Update preserves the shape invariant. -/
theorem linesShape_update (name : PyStr) (t : ProgressiveTask)
    (hs : linesShape name t.status_lines) (u : PyStr) (b ok : Bool) (fid : Nat) :
    linesShape name ((t.update u b ok fid).state).status_lines := by
  obtain ⟨s, rest, hls, hrest⟩ := hs
  cases b with
  | true =>
    rw [update_append_lines, hls]
    refine ⟨s, rest ++ [bulletLine u], by simp, ?_⟩
    intro x hx
    rcases List.mem_append.mp hx with hx | hx
    · exact hrest x hx
    · rw [List.mem_singleton.mp hx]
      exact isBullet_bulletLine u
  | false =>
    have hlines : ((t.update u false ok fid).state).status_lines =
        (headerOf name :: s :: rest).dropLast ++ [bulletLine u] := by
      simp only [ProgressiveTask.update, hls, Bool.false_eq_true, if_false]
      rw [editOwned_lines]
    cases rest with
    | nil =>
      rw [hlines]
      exact ⟨bulletLine u, [], by simp, by
        intro x hx
        simp at hx⟩
    | cons r rs =>
      rw [hlines]
      refine ⟨s, (r :: rs).dropLast ++ [bulletLine u], by simp [List.dropLast_cons₂], ?_⟩
      intro x hx
      rcases List.mem_append.mp hx with hx | hx
      · exact hrest x (List.mem_of_mem_dropLast hx)
      · rw [List.mem_singleton.mp hx]
        exact isBullet_bulletLine u

/-- Any sequence of updates after start preserves the shape invariant. -/
theorem linesShape_runUpdates (name : PyStr) (t : ProgressiveTask)
    (hs : linesShape name t.status_lines) (us : List (PyStr × Bool)) (ok : Bool)
    (fid : Nat) :
    linesShape name (runUpdates t us ok fid).status_lines := by
  induction us generalizing t with
  | nil => exact hs
  | cons u us ih =>
    exact ih _ (linesShape_update name t hs u.1 u.2 ok fid)

/-- The shape invariant pins the non-bullet count to 1 or 2 and the head to
the header line. -/
theorem nonBulletCount_of_shape (name : PyStr) (t : ProgressiveTask)
    (hs : linesShape name t.status_lines) :
    1 ≤ nonBulletCount t ∧ nonBulletCount t ≤ 2 ∧
    t.status_lines.head? = some (headerOf name) := by
  obtain ⟨s, rest, hls, hrest⟩ := hs
  have hfr : rest.filter (fun l => !isBullet l) = [] := by
    rw [List.filter_eq_nil_iff]
    intro a ha
    simp [hrest a ha]
  unfold nonBulletCount
  rw [hls]
  cases hb : isBullet s <;>
    simp [List.filter_cons, isBullet_headerOf, hb, hfr]

/-- C5 counterexample: directly after start, with one append-mode update
made, the accumulated list holds 2 non-bullet lines (the header and the
initial status line), not exactly 1. -/
theorem c5_counterexample :
    nonBulletCount
      (runUpdates (((mkProgressiveTask ("Task".toList) 0).start none 0).1)
        [(("step".toList), true)] true 0) = 2 := by
  decide

/-- C5 amended: after start, across every sequence of update calls the
accumulated list keeps the non-bullet header as its first line, holds 1 or
2 non-bullet lines in total (the initial status line is the second
non-bullet one until a replace-mode update overwrites it), and the
head/tail windowing changes the rendered lines exactly when the
accumulated line count is strictly greater than 10. -/
theorem c5_header_count_and_window (name : PyStr) (t0 : ℚ) (i : Option PyStr)
    (us : List (PyStr × Bool)) (ok : Bool) (fid fid2 : Nat) :
    1 ≤ nonBulletCount (runUpdates (((mkProgressiveTask name t0).start i fid).1) us ok fid2) ∧
    nonBulletCount (runUpdates (((mkProgressiveTask name t0).start i fid).1) us ok fid2) ≤ 2 ∧
    (runUpdates (((mkProgressiveTask name t0).start i fid).1) us ok fid2).status_lines.head? =
      some (headerOf name) ∧
    (formatLines (runUpdates (((mkProgressiveTask name t0).start i fid).1) us ok fid2) =
        (runUpdates (((mkProgressiveTask name t0).start i fid).1) us ok fid2).status_lines ↔
      (runUpdates (((mkProgressiveTask name t0).start i fid).1) us ok fid2).status_lines.length ≤
        10) := by
  have hs := linesShape_runUpdates name _ (linesShape_start name t0 i fid) us ok fid2
  have hc := nonBulletCount_of_shape name _ hs
  refine ⟨hc.1, hc.2.1, hc.2.2, ?_, ?_⟩
  · intro he
    by_contra hlen
    push_neg at hlen
    have h10 := formatLines_length_of_gt _ hlen
    rw [he] at h10
    omega
  · exact fun h => formatLines_of_le _ h

/-! Claim C7: run_with_progress reporting. -/

/-- Complete always leaves the completion flag set. -/
theorem complete_flag (t : ProgressiveTask) (fs : Option PyStr) (now : ℚ) (ok : Bool) :
    (t.complete fs now ok).state.is_complete = true := by
  rw [complete_state]

/-- Error always leaves the completion flag set. -/
theorem error_flag (t : ProgressiveTask) (msg : PyStr) (now : ℚ) (ok : Bool) :
    (t.error msg now ok).state.is_complete = true := by
  rw [error_state]

/-- Error appends exactly the error line and the elapsed line. -/
theorem error_lines (t : ProgressiveTask) (msg : PyStr) (now : ℚ) (ok : Bool) :
    (t.error msg now ok).state.status_lines =
      t.status_lines ++ [errorLine msg, failedLine (now - t.start_time)] := by
  rw [error_state]

/-- A successful complete on a task owning message m performs exactly one
edit of that message with the rendered final content. -/
theorem complete_res_of_some (t : ProgressiveTask) (m : Nat) (fs : Option PyStr)
    (now : ℚ) (h : t.message = some m) :
    (t.complete fs now true).actions =
      [ChanAct.edit m (formatStatus (t.complete fs now true).state)] := by
  simp only [ProgressiveTask.complete]
  rw [editStrict_of_ok _ m (by exact h)]

/-- A successful error on a task owning message m performs exactly one edit
of that message with the rendered final content. -/
theorem error_res_of_some (t : ProgressiveTask) (m : Nat) (msg : PyStr)
    (now : ℚ) (h : t.message = some m) :
    (t.error msg now true).actions =
      [ChanAct.edit m (formatStatus (t.error msg now true).state)] := by
  simp only [ProgressiveTask.error]
  rw [editStrict_of_ok _ m (by exact h)]

/-- The update loop of run_with_progress never changes the owned message or
the start time. -/
theorem runStep_foldl_preserves (fid : Nat) (us : List PyStr) (t : ProgressiveTask)
    (a : List ChanAct) :
    (us.foldl (runStep fid) (t, a)).1.message = t.message ∧
    (us.foldl (runStep fid) (t, a)).1.start_time = t.start_time := by
  induction us generalizing t a with
  | nil => exact ⟨rfl, rfl⟩
  | cons u us ih =>
    simp only [List.foldl_cons, runStep]
    constructor
    · rw [(ih _ _).1, update_message_of_ok]
    · rw [(ih _ _).2, update_start_time]

/-- C7: run_with_progress returns exactly the wrapped task's outcome (the
result on success, the same error re-signalled on failure, never
swallowed); on failure the reporter's error path appends the error line and
the elapsed line and edits them into the owned message as the last outbound
operation; on success complete marks the task finished and likewise edits
the owned message last. -/
theorem c7_run_with_progress_reports {V : Type} (name : PyStr) (t0 tEnd : ℚ)
    (updates : List PyStr) (task : Except PyStr V) (fid : Nat) :
    (run_with_progress name t0 tEnd updates task fid).1 = task ∧
    (∀ e, task = Except.error e →
      (run_with_progress name t0 tEnd updates task fid).2.1.is_complete = true ∧
      (∃ pre, (run_with_progress name t0 tEnd updates task fid).2.1.status_lines =
        pre ++ [errorLine e, failedLine (tEnd - t0)]) ∧
      (∃ pa, (run_with_progress name t0 tEnd updates task fid).2.2 =
        pa ++ [ChanAct.edit fid
          (formatStatus (run_with_progress name t0 tEnd updates task fid).2.1)])) ∧
    (∀ v, task = Except.ok v →
      (run_with_progress name t0 tEnd updates task fid).2.1.is_complete = true ∧
      (∃ pa, (run_with_progress name t0 tEnd updates task fid).2.2 =
        pa ++ [ChanAct.edit fid
          (formatStatus (run_with_progress name t0 tEnd updates task fid).2.1)])) := by
  have hpre := runStep_foldl_preserves fid updates
    ((mkProgressiveTask name t0).start none fid).1
    ((mkProgressiveTask name t0).start none fid).2
  have hm : (runFold name t0 updates fid).1.message = some fid := hpre.1
  have hst : (runFold name t0 updates fid).1.start_time = t0 := hpre.2
  cases task with
  | ok v =>
    refine ⟨rfl, fun e he => absurd he (by simp), fun w hw => ⟨?_, ?_⟩⟩
    · show ((runFold name t0 updates fid).1.complete none tEnd true).state.is_complete = true
      exact complete_flag _ _ _ _
    · refine ⟨(runFold name t0 updates fid).2, ?_⟩
      show (runFold name t0 updates fid).2 ++
          ((runFold name t0 updates fid).1.complete none tEnd true).actions =
        (runFold name t0 updates fid).2 ++
          [ChanAct.edit fid
            (formatStatus ((runFold name t0 updates fid).1.complete none tEnd true).state)]
      rw [complete_res_of_some _ fid none tEnd hm]
  | error e =>
    refine ⟨rfl, ?_, fun w hw => absurd hw (by simp)⟩
    intro e2 he
    injection he.symm with h3
    subst h3
    refine ⟨?_, ⟨(runFold name t0 updates fid).1.status_lines, ?_⟩,
      ⟨(runFold name t0 updates fid).2, ?_⟩⟩
    · show ((runFold name t0 updates fid).1.error e2 tEnd true).state.is_complete = true
      exact error_flag _ _ _ _
    · show ((runFold name t0 updates fid).1.error e2 tEnd true).state.status_lines =
        (runFold name t0 updates fid).1.status_lines ++
          [errorLine e2, failedLine (tEnd - t0)]
      rw [error_lines, hst]
    · show (runFold name t0 updates fid).2 ++
          ((runFold name t0 updates fid).1.error e2 tEnd true).actions =
        (runFold name t0 updates fid).2 ++
          [ChanAct.edit fid
            (formatStatus ((runFold name t0 updates fid).1.error e2 tEnd true).state)]
      rw [error_res_of_some _ fid e2 tEnd hm]

/-- Witness for C7 on a failing task and on a succeeding task. -/
theorem c7_run_with_progress_reports_witness :
    (run_with_progress ("T".toList) 0 1 []
        (Except.error ("boom".toList) : Except PyStr Nat) 0).1 =
      Except.error ("boom".toList) ∧
    (run_with_progress ("T".toList) 0 1 []
        (Except.error ("boom".toList) : Except PyStr Nat) 0).2.1.is_complete = true ∧
    (∃ pre, (run_with_progress ("T".toList) 0 1 []
        (Except.error ("boom".toList) : Except PyStr Nat) 0).2.1.status_lines =
      pre ++ [errorLine ("boom".toList), failedLine (1 - 0)]) ∧
    (run_with_progress ("T".toList) 0 1 []
        (Except.ok 7 : Except PyStr Nat) 0).2.1.is_complete = true := by
  have h1 := c7_run_with_progress_reports ("T".toList) 0 1 []
    (Except.error ("boom".toList) : Except PyStr Nat) 0
  have h2 := c7_run_with_progress_reports ("T".toList) 0 1 []
    (Except.ok 7 : Except PyStr Nat) 0
  have he := h1.2.1 ("boom".toList) rfl
  exact ⟨h1.1, he.1, he.2.1, (h2.2.2 7 rfl).1⟩
